import Mathlib

/-!
Shallow embedding of the farming-game backend (src/index.js): a fixed 4×5
board of plots, each moving through the lifecycle
empty → planted → watered → ready → empty, with a growth timer armed on
watering, persistence of the board (timer handles stripped), and timer
rehydration on startup from the stored watering timestamps.

Machine timers are modelled by a `TimerStatus` value stored in the plot's
`growthTimeout` field: it records whether the field is null (`noTimeout`),
holds a pending timer armed by the water handler or by rehydration (with its
delay), or holds a handle whose timer has already fired (the source nulls the
field only in the water callback's success branch, so a fired handle can
remain in the field).  JavaScript truthiness of the field is `≠ noTimeout`.
-/

namespace Farm

def ROWS : Int := 4
def COLS : Int := 5
def GROWTH_TIME_MS : Int := 5000

inductive PlotState
  | empty
  | planted
  | watered
  | ready
deriving DecidableEq

/-- The wire representation of a plot state (the strings stored in
`plot.state` in the source). -/
def PlotState.str : PlotState → String
  | .empty => "empty"
  | .planted => "planted"
  | .watered => "watered"
  | .ready => "ready"

/-- Contents of the `growthTimeout` field together with the scheduling
status of the timeout it refers to (pending or already fired). -/
inductive TimerStatus
  | noTimeout
  | pendingWater (delay : Int)
  | pendingRehyd (delay : Int)
  | firedWater
  | firedRehyd
deriving DecidableEq

/-- One grid cell, as in `initializeNewGameBoard`. -/
structure Plot where
  state : PlotState
  lastWateredTime : Option Int
  growthTimeout : TimerStatus
deriving DecidableEq

/-- JavaScript truthiness of the `growthTimeout` field: null/undefined are
falsy, any Timeout object (pending or fired) is truthy. -/
def growthTimeoutSet (p : Plot) : Bool := decide (p.growthTimeout ≠ .noTimeout)

/-- Does the plot's `growthTimeout` refer to a timer that is still
scheduled (armed but not yet fired, not cancelled)? -/
def timerPending (p : Plot) : Bool :=
  match p.growthTimeout with
  | .pendingWater _ => true
  | .pendingRehyd _ => true
  | _ => false

/-- A plot as stored on disk: `saveGameBoard` deletes `growthTimeout`
before serialization. -/
structure PersistPlot where
  state : PlotState
  lastWateredTime : Option Int
deriving DecidableEq

abbrev Board := List (List Plot)
abbrev StoredBoard := List (List PersistPlot)

def serializePlot (p : Plot) : PersistPlot := ⟨p.state, p.lastWateredTime⟩

/-- `saveGameBoard`: the document written to storage (the board with the
non-serializable `growthTimeout` removed from every plot). -/
def saveGameBoard (b : Board) : StoredBoard :=
  b.map (fun row => row.map serializePlot)

/-- A plot as it comes back from storage: stored plots carry no
`growthTimeout` property, so the field reads as undefined (falsy). -/
def loadPlot (q : PersistPlot) : Plot := ⟨q.state, q.lastWateredTime, .noTimeout⟩

def plotAt (b : Board) (r c : Nat) : Option Plot :=
  (b[r]?).bind (fun row => row[c]?)

def storedAt (sb : StoredBoard) (r c : Nat) : Option PersistPlot :=
  (sb[r]?).bind (fun row => row[c]?)

/-- In-place update of `gameBoard[r][c]`. -/
def setPlot (b : Board) (r c : Nat) (p : Plot) : Board :=
  b.set r (((b[r]?).getD []).set c p)

/-- Outcome of one HTTP handler invocation: the board after the call, the
response, and the storage documents written during the call (in order).
`Option.none` at the call site models a thrown TypeError (plot lookup on a
malformed board), which happens after validation and before any mutation. -/
structure HandlerResult where
  board : Board
  status : Nat
  success : Bool
  message : String
  saves : List StoredBoard
deriving DecidableEq

/-- `POST /api/plant`. -/
def plantHandler (b : Board) (row col : Option Int) : Option HandlerResult :=
  match row, col with
  | some r, some c =>
    if r < 0 ∨ r ≥ ROWS ∨ c < 0 ∨ c ≥ COLS then
      some ⟨b, 400, false, "Invalid plot coordinates.", []⟩
    else
      match plotAt b r.toNat c.toNat with
      | Option.none => Option.none
      | some plot =>
        if plot.state = .empty then
          let b' := setPlot b r.toNat c.toNat ⟨.planted, Option.none, .noTimeout⟩
          some ⟨b', 200, true,
            "Seed planted at (" ++ toString r ++ ", " ++ toString c ++ ").",
            [saveGameBoard b']⟩
        else
          some ⟨b, 400, false, "Plot is not empty.", []⟩
  | _, _ => some ⟨b, 400, false, "Invalid plot coordinates.", []⟩

/-- `POST /api/water`.  `now` is the value of `Date.now()` during the call.
On success the existing timeout (if any) is cleared and exactly one new
growth timeout is armed with delay `GROWTH_TIME_MS`. -/
def waterHandler (b : Board) (now : Int) (row col : Option Int) :
    Option HandlerResult :=
  match row, col with
  | some r, some c =>
    if r < 0 ∨ r ≥ ROWS ∨ c < 0 ∨ c ≥ COLS then
      some ⟨b, 400, false, "Invalid plot coordinates.", []⟩
    else
      match plotAt b r.toNat c.toNat with
      | Option.none => Option.none
      | some plot =>
        if plot.state = .planted then
          let b' := setPlot b r.toNat c.toNat
            ⟨.watered, some now, .pendingWater GROWTH_TIME_MS⟩
          some ⟨b', 200, true,
            "Plant at (" ++ toString r ++ ", " ++ toString c ++
              ") watered. It will be ready in " ++
              toString (GROWTH_TIME_MS / 1000) ++ " seconds.",
            [saveGameBoard b']⟩
        else if plot.state = .watered ∨ plot.state = .ready then
          some ⟨b, 400, false, "Plant is already watered or ready.", []⟩
        else
          some ⟨b, 400, false, "Nothing to water here. Plant a seed first!", []⟩
  | _, _ => some ⟨b, 400, false, "Invalid plot coordinates.", []⟩

/-- `POST /api/harvest`. -/
def harvestHandler (b : Board) (row col : Option Int) : Option HandlerResult :=
  match row, col with
  | some r, some c =>
    if r < 0 ∨ r ≥ ROWS ∨ c < 0 ∨ c ≥ COLS then
      some ⟨b, 400, false, "Invalid plot coordinates.", []⟩
    else
      match plotAt b r.toNat c.toNat with
      | Option.none => Option.none
      | some plot =>
        if plot.state = .ready then
          let b' := setPlot b r.toNat c.toNat ⟨.empty, Option.none, .noTimeout⟩
          some ⟨b', 200, true,
            "Plant at (" ++ toString r ++ ", " ++ toString c ++ ") harvested.",
            [saveGameBoard b']⟩
        else if plot.state = .empty then
          some ⟨b, 400, false, "Nothing to harvest here. Plot is empty!", []⟩
        else
          some ⟨b, 400, false, "Plant is not ready to harvest yet.", []⟩
  | _, _ => some ⟨b, 400, false, "Invalid plot coordinates.", []⟩

/-- `GET /api/game-state`: the response body, a per-plot copy with the
timer handle omitted.  Pure function of the board: no mutation, no save. -/
def apiGameState (b : Board) : StoredBoard :=
  b.map (fun row => row.map (fun plot => serializePlot plot))

/-- A scheduled growth timeout fires at a single plot.  Both callbacks
(the one armed in the water handler, lines 181–190, and the one armed
during rehydration, lines 59–65) re-check that the plot is still
`'watered'`; only the water callback's success branch nulls the
`growthTimeout` field.  The Bool reports whether `saveGameBoard` ran. -/
def firePlot (p : Plot) : Plot × Bool :=
  match p.growthTimeout with
  | .pendingWater _ =>
    if p.state = .watered then
      (⟨.ready, p.lastWateredTime, .noTimeout⟩, true)
    else
      ({ p with growthTimeout := .firedWater }, false)
  | .pendingRehyd _ =>
    if p.state = .watered then
      ({ p with state := .ready, growthTimeout := .firedRehyd }, true)
    else
      ({ p with growthTimeout := .firedRehyd }, false)
  | _ => (p, false)

/-- A growth timeout fires for coordinate (r, c).  If the plot holds no
pending timer nothing can fire, so the board is unchanged. -/
def fireTimer (b : Board) (r c : Nat) : Board × Bool :=
  match plotAt b r c with
  | Option.none => (b, false)
  | some p => (setPlot b r c (firePlot p).1, (firePlot p).2)

/-- JavaScript truthiness of a stored `lastWateredTime`: null/undefined and
0 are falsy. -/
def truthy : Option Int → Bool
  | Option.none => false
  | some v => decide (v ≠ 0)

/-- Rehydration of one loaded plot (the body of the `forEach` in
`initStorageAndLoadGameState`, lines 53–71). -/
def rehydratePlot (now : Int) (plot : Plot) : Plot :=
  if plot.state = .watered ∧ truthy plot.lastWateredTime = true then
    let timeElapsed := now - plot.lastWateredTime.getD 0
    let remainingGrowthTime := GROWTH_TIME_MS - timeElapsed
    if remainingGrowthTime > 0 then
      { plot with growthTimeout := .pendingRehyd remainingGrowthTime }
    else
      { plot with state := .ready }
  else plot

def emptyPlot : Plot := ⟨.empty, Option.none, .noTimeout⟩

/-- `initializeNewGameBoard` (without its trailing save, recorded by the
caller's result): the fresh ROWS × COLS all-empty board. -/
def initializeNewGameBoard : Board :=
  (List.range ROWS.toNat).map (fun _ =>
    (List.range COLS.toNat).map (fun _ => emptyPlot))

/-- Result of startup: the in-memory board and the storage writes made. -/
structure InitResult where
  board : Board
  saves : List StoredBoard
deriving DecidableEq

/-- `initStorageAndLoadGameState`: load the stored document if present and
rehydrate every plot, else build and immediately save a fresh board. -/
def initStorageAndLoadGameState (now : Int) (storedGameBoard : Option StoredBoard) :
    InitResult :=
  match storedGameBoard with
  | some sb =>
      ⟨sb.map (fun row => row.map (fun q => rehydratePlot now (loadPlot q))), []⟩
  | Option.none =>
      let b := initializeNewGameBoard
      ⟨b, [saveGameBoard b]⟩

/-- One external stimulus: an HTTP call to a mutating endpoint, or the
firing of a scheduled growth timeout. -/
inductive Event
  | plant (row col : Option Int)
  | water (now : Int) (row col : Option Int)
  | harvest (row col : Option Int)
  | fire (r c : Nat)

/-- Effect of one event on the board (the single-threaded event loop runs
each handler or callback to completion). -/
def stepEvent (b : Board) (e : Event) : Board :=
  match e with
  | .plant row col =>
    match plantHandler b row col with
    | some res => res.board
    | Option.none => b
  | .water now row col =>
    match waterHandler b now row col with
    | some res => res.board
    | Option.none => b
  | .harvest row col =>
    match harvestHandler b row col with
    | some res => res.board
    | Option.none => b
  | .fire r c => (fireTimer b r c).1

def run (b : Board) (es : List Event) : Board := es.foldl stepEvent b

/-- The successful effect of an event on the single plot it addresses:
`p` is the plot before, `p'` the plot after.  Rejected calls and timeouts
firing without a pending timer touch no plot at all. -/
def plotStep (e : Event) (p p' : Plot) : Prop :=
  match e with
  | .plant _ _ => p.state = .empty ∧ p' = ⟨.planted, Option.none, .noTimeout⟩
  | .water now _ _ =>
      p.state = .planted ∧ p' = ⟨.watered, some now, .pendingWater GROWTH_TIME_MS⟩
  | .harvest _ _ => p.state = .ready ∧ p' = ⟨.empty, Option.none, .noTimeout⟩
  | .fire _ _ => timerPending p = true ∧ p' = (firePlot p).1

theorem plotAt_setPlot_eq {b : Board} {rn cn : Nat} {q : Plot} (pnew : Plot)
    (hq : plotAt b rn cn = some q) :
    plotAt (setPlot b rn cn pnew) rn cn = some pnew := by
  unfold plotAt setPlot at *
  cases hr : b[rn]? with
  | none => rw [hr] at hq; exact Option.noConfusion hq
  | some row =>
    rw [hr] at hq
    have hq' : row[cn]? = some q := hq
    have hrn : rn < b.length := (List.getElem?_eq_some.mp hr).1
    have hcn : cn < row.length := (List.getElem?_eq_some.mp hq').1
    show (List.set b rn (row.set cn pnew))[rn]?.bind (fun row => row[cn]?) = some pnew
    rw [List.getElem?_set_self hrn]
    show (row.set cn pnew)[cn]? = some pnew
    rw [List.getElem?_set_self hcn]

theorem plotAt_setPlot_ne {b : Board} {rn cn : Nat} (pnew : Plot) {r c : Nat}
    (hne : ¬(r = rn ∧ c = cn)) :
    plotAt (setPlot b rn cn pnew) r c = plotAt b r c := by
  unfold plotAt setPlot
  by_cases hr : r = rn
  · subst hr
    have hc : c ≠ cn := fun hc => hne ⟨rfl, hc⟩
    cases hrow : b[r]? with
    | none =>
      have hlen : b.length ≤ r := by
        by_contra hlt
        push_neg at hlt
        rw [List.getElem?_eq_getElem hlt] at hrow
        exact Option.noConfusion hrow
      show (List.set b r (([] : List Plot).set cn pnew))[r]?.bind (fun row => row[c]?) =
        (Option.none : Option (List Plot)).bind (fun row => row[c]?)
      rw [List.getElem?_eq_none (by rw [List.length_set]; exact hlen)]
    | some row =>
      have hrn : r < b.length := (List.getElem?_eq_some.mp hrow).1
      show (List.set b r (row.set cn pnew))[r]?.bind (fun row => row[c]?) =
        (some row).bind (fun row => row[c]?)
      rw [List.getElem?_set_self hrn]
      show (row.set cn pnew)[c]? = row[c]?
      rw [List.getElem?_set_ne (fun h => hc h.symm)]
  · rw [List.getElem?_set_ne (fun h => hr h.symm)]

theorem plotAt_setPlot_cases {b : Board} {rn cn : Nat} {q : Plot} (pnew : Plot)
    {r c : Nat} {p : Plot}
    (hq : plotAt b rn cn = some q) (h : plotAt b r c = some p) :
    plotAt (setPlot b rn cn pnew) r c = some p ∨
      (r = rn ∧ c = cn ∧ p = q ∧ plotAt (setPlot b rn cn pnew) r c = some pnew) := by
  by_cases hrc : r = rn ∧ c = cn
  · obtain ⟨h1, h2⟩ := hrc
    subst h1; subst h2
    right
    refine ⟨rfl, rfl, ?_, plotAt_setPlot_eq pnew hq⟩
    rw [h] at hq
    exact Option.some.inj hq
  · left
    rw [plotAt_setPlot_ne pnew hrc]
    exact h

/-- Writing back the plot already stored at a coordinate changes nothing. -/
theorem plotAt_setPlot_same {b : Board} {rn cn : Nat} {q : Plot}
    (hq : plotAt b rn cn = some q) (r c : Nat) :
    plotAt (setPlot b rn cn q) r c = plotAt b r c := by
  by_cases hrc : r = rn ∧ c = cn
  · obtain ⟨h1, h2⟩ := hrc
    subst h1; subst h2
    rw [plotAt_setPlot_eq q hq, hq]
  · exact plotAt_setPlot_ne q hrc

/-- A timeout that is not pending (never armed, cancelled, or already
fired) cannot fire: `firePlot` is the identity there. -/
theorem firePlot_no_pending {p : Plot} (hp : timerPending p = false) :
    firePlot p = (p, false) := by
  unfold firePlot
  cases hgt : p.growthTimeout with
  | noTimeout => rfl
  | pendingWater d =>
    unfold timerPending at hp
    rw [hgt] at hp
    exact Bool.noConfusion hp
  | pendingRehyd d =>
    unfold timerPending at hp
    rw [hgt] at hp
    exact Bool.noConfusion hp
  | firedWater => rfl
  | firedRehyd => rfl

/-- Master frame lemma: one event either leaves a given coordinate's
lookup unchanged or performs the event's success action on the plot
stored there. -/
theorem step_shape (b : Board) (e : Event) (r c : Nat) :
    plotAt (stepEvent b e) r c = plotAt b r c ∨
      ∃ q p', plotAt b r c = some q ∧
        plotAt (stepEvent b e) r c = some p' ∧ plotStep e q p' := by
  cases e with
  | plant row col =>
    cases row with
    | none =>
      have hb : stepEvent b (Event.plant Option.none col) = b := by
        cases col <;> rfl
      rw [hb]; exact Or.inl rfl
    | some rr =>
      cases col with
      | none => exact Or.inl rfl
      | some cc =>
        by_cases hv : rr < 0 ∨ rr ≥ ROWS ∨ cc < 0 ∨ cc ≥ COLS
        · have hb : stepEvent b (Event.plant (some rr) (some cc)) = b := by
            simp only [stepEvent, plantHandler, if_pos hv]
          rw [hb]; exact Or.inl rfl
        · cases hq : plotAt b rr.toNat cc.toNat with
          | none =>
            have hb : stepEvent b (Event.plant (some rr) (some cc)) = b := by
              simp only [stepEvent, plantHandler, if_neg hv, hq]
            rw [hb]; exact Or.inl rfl
          | some plot =>
            by_cases hs : plot.state = PlotState.empty
            · have hb : stepEvent b (Event.plant (some rr) (some cc)) =
                  setPlot b rr.toNat cc.toNat
                    ⟨PlotState.planted, Option.none, TimerStatus.noTimeout⟩ := by
                simp only [stepEvent, plantHandler, if_neg hv, hq, if_pos hs]
              rw [hb]
              by_cases hrc : r = rr.toNat ∧ c = cc.toNat
              · obtain ⟨h1, h2⟩ := hrc
                subst h1; subst h2
                exact Or.inr ⟨plot, _, hq, plotAt_setPlot_eq _ hq, hs, rfl⟩
              · rw [plotAt_setPlot_ne _ hrc]
                exact Or.inl rfl
            · have hb : stepEvent b (Event.plant (some rr) (some cc)) = b := by
                simp only [stepEvent, plantHandler, if_neg hv, hq, if_neg hs]
              rw [hb]; exact Or.inl rfl
  | water now row col =>
    cases row with
    | none =>
      have hb : stepEvent b (Event.water now Option.none col) = b := by
        cases col <;> rfl
      rw [hb]; exact Or.inl rfl
    | some rr =>
      cases col with
      | none => exact Or.inl rfl
      | some cc =>
        by_cases hv : rr < 0 ∨ rr ≥ ROWS ∨ cc < 0 ∨ cc ≥ COLS
        · have hb : stepEvent b (Event.water now (some rr) (some cc)) = b := by
            simp only [stepEvent, waterHandler, if_pos hv]
          rw [hb]; exact Or.inl rfl
        · cases hq : plotAt b rr.toNat cc.toNat with
          | none =>
            have hb : stepEvent b (Event.water now (some rr) (some cc)) = b := by
              simp only [stepEvent, waterHandler, if_neg hv, hq]
            rw [hb]; exact Or.inl rfl
          | some plot =>
            by_cases hs : plot.state = PlotState.planted
            · have hb : stepEvent b (Event.water now (some rr) (some cc)) =
                  setPlot b rr.toNat cc.toNat
                    ⟨PlotState.watered, some now, TimerStatus.pendingWater GROWTH_TIME_MS⟩ := by
                simp only [stepEvent, waterHandler, if_neg hv, hq, if_pos hs]
              rw [hb]
              by_cases hrc : r = rr.toNat ∧ c = cc.toNat
              · obtain ⟨h1, h2⟩ := hrc
                subst h1; subst h2
                exact Or.inr ⟨plot, _, hq, plotAt_setPlot_eq _ hq, hs, rfl⟩
              · rw [plotAt_setPlot_ne _ hrc]
                exact Or.inl rfl
            · have hb : stepEvent b (Event.water now (some rr) (some cc)) = b := by
                simp only [stepEvent, waterHandler, if_neg hv, hq, if_neg hs]
                by_cases hw : plot.state = PlotState.watered ∨ plot.state = PlotState.ready
                · rw [if_pos hw]
                · rw [if_neg hw]
              rw [hb]; exact Or.inl rfl
  | harvest row col =>
    cases row with
    | none =>
      have hb : stepEvent b (Event.harvest Option.none col) = b := by
        cases col <;> rfl
      rw [hb]; exact Or.inl rfl
    | some rr =>
      cases col with
      | none => exact Or.inl rfl
      | some cc =>
        by_cases hv : rr < 0 ∨ rr ≥ ROWS ∨ cc < 0 ∨ cc ≥ COLS
        · have hb : stepEvent b (Event.harvest (some rr) (some cc)) = b := by
            simp only [stepEvent, harvestHandler, if_pos hv]
          rw [hb]; exact Or.inl rfl
        · cases hq : plotAt b rr.toNat cc.toNat with
          | none =>
            have hb : stepEvent b (Event.harvest (some rr) (some cc)) = b := by
              simp only [stepEvent, harvestHandler, if_neg hv, hq]
            rw [hb]; exact Or.inl rfl
          | some plot =>
            by_cases hs : plot.state = PlotState.ready
            · have hb : stepEvent b (Event.harvest (some rr) (some cc)) =
                  setPlot b rr.toNat cc.toNat
                    ⟨PlotState.empty, Option.none, TimerStatus.noTimeout⟩ := by
                simp only [stepEvent, harvestHandler, if_neg hv, hq, if_pos hs]
              rw [hb]
              by_cases hrc : r = rr.toNat ∧ c = cc.toNat
              · obtain ⟨h1, h2⟩ := hrc
                subst h1; subst h2
                exact Or.inr ⟨plot, _, hq, plotAt_setPlot_eq _ hq, hs, rfl⟩
              · rw [plotAt_setPlot_ne _ hrc]
                exact Or.inl rfl
            · have hb : stepEvent b (Event.harvest (some rr) (some cc)) = b := by
                simp only [stepEvent, harvestHandler, if_neg hv, hq, if_neg hs]
                by_cases hw : plot.state = PlotState.empty
                · rw [if_pos hw]
                · rw [if_neg hw]
              rw [hb]; exact Or.inl rfl
  | fire rn cn =>
    cases hq : plotAt b rn cn with
    | none =>
      have hb : stepEvent b (Event.fire rn cn) = b := by
        simp only [stepEvent, fireTimer, hq]
      rw [hb]; exact Or.inl rfl
    | some plot =>
      have hb : stepEvent b (Event.fire rn cn) =
          setPlot b rn cn (firePlot plot).1 := by
        simp only [stepEvent, fireTimer, hq]
      rw [hb]
      by_cases hp : timerPending plot = true
      · by_cases hrc : r = rn ∧ c = cn
        · obtain ⟨h1, h2⟩ := hrc
          subst h1; subst h2
          exact Or.inr ⟨plot, _, hq, plotAt_setPlot_eq _ hq, hp, rfl⟩
        · rw [plotAt_setPlot_ne _ hrc]
          exact Or.inl rfl
      · have hfix1 : (firePlot plot).1 = plot := by
          rw [firePlot_no_pending (eq_false_of_ne_true hp)]
        rw [hfix1, plotAt_setPlot_same hq r c]
        exact Or.inl rfl

/-- Forward form of `step_shape`: starting from a known plot, one event
leaves it untouched or applies the event's success action to it. -/
theorem step_cases (b : Board) (e : Event) (r c : Nat) (p : Plot)
    (h : plotAt b r c = some p) :
    plotAt (stepEvent b e) r c = some p ∨
      ∃ p', plotAt (stepEvent b e) r c = some p' ∧ plotStep e p p' := by
  rcases step_shape b e r c with heq | ⟨q, p', hq, hp', hstep⟩
  · rw [heq, h]; exact Or.inl rfl
  · rw [h] at hq
    rcases Option.some.inj hq with rfl
    exact Or.inr ⟨p', hp', hstep⟩

/-- The edges of the §4.1 lifecycle table, tagged with the action that is
allowed to take them: Empty→Planted by plant, Planted→Watered by water,
Watered→Ready by growth completion, Ready→Empty by harvest. -/
def allowedEdge : Event → PlotState → PlotState → Prop
  | .plant _ _, s, s' => s = .empty ∧ s' = .planted
  | .water _ _ _, s, s' => s = .planted ∧ s' = .watered
  | .harvest _ _, s, s' => s = .ready ∧ s' = .empty
  | .fire _ _, s, s' => s = .watered ∧ s' = .ready

/-- A firing either leaves the state alone (guard failed) or completes
growth on a watered plot. -/
theorem firePlot_state (p : Plot) :
    (firePlot p).1.state = p.state ∨
      (p.state = .watered ∧ (firePlot p).1.state = .ready) := by
  cases hgt : p.growthTimeout with
  | pendingWater d =>
    by_cases hw : p.state = PlotState.watered
    · right
      refine ⟨hw, ?_⟩
      simp only [firePlot, hgt, if_pos hw]
    · left
      simp only [firePlot, hgt, if_neg hw]
  | pendingRehyd d =>
    by_cases hw : p.state = PlotState.watered
    · right
      refine ⟨hw, ?_⟩
      simp only [firePlot, hgt, if_pos hw]
    · left
      simp only [firePlot, hgt, if_neg hw]
  | noTimeout => left; simp only [firePlot, hgt]
  | firedWater => left; simp only [firePlot, hgt]
  | firedRehyd => left; simp only [firePlot, hgt]

/-- A successful per-plot action changes the state along an allowed edge
(or, for a guarded firing whose guard failed, not at all). -/
theorem plotStep_state {e : Event} {p p' : Plot} (hs : plotStep e p p') :
    p'.state = p.state ∨ allowedEdge e p.state p'.state := by
  cases e with
  | plant row col => exact Or.inr ⟨hs.1, by rw [hs.2]⟩
  | water now row col => exact Or.inr ⟨hs.1, by rw [hs.2]⟩
  | harvest row col => exact Or.inr ⟨hs.1, by rw [hs.2]⟩
  | fire rn cn =>
    obtain ⟨_, hfire⟩ := hs
    rcases firePlot_state p with heq | ⟨hw, hrdy⟩
    · exact Or.inl (by rw [hfire]; exact heq)
    · exact Or.inr ⟨hw, by rw [hfire]; exact hrdy⟩

/-- C3: starting from the fresh board, under any sequence of
plant/water/harvest calls and timeout firings, any plot's state is one of
the four lifecycle states, and appending one more event either leaves the
plot's state unchanged or moves it along the single §4.1 edge belonging
to that event's kind.  (The state space being exactly
{empty, planted, watered, ready} is also structural: `PlotState` has
exactly these four constructors, matching the strings used by the code.) -/
theorem state_follows_lifecycle_edges (es : List Event) (e : Event)
    (r c : Nat) (p p' : Plot)
    (h : plotAt (run initializeNewGameBoard es) r c = some p)
    (h' : plotAt (run initializeNewGameBoard (es ++ [e])) r c = some p') :
    p'.state.str ∈ (["empty", "planted", "watered", "ready"] : List String) ∧
      (p'.state = p.state ∨ allowedEdge e p.state p'.state) := by
  have hrun : run initializeNewGameBoard (es ++ [e]) =
      stepEvent (run initializeNewGameBoard es) e := by
    unfold run
    rw [List.foldl_append]
    rfl
  rw [hrun] at h'
  refine ⟨by cases p'.state <;> decide, ?_⟩
  rcases step_cases (run initializeNewGameBoard es) e r c p h with hcase | ⟨p'', hcase, hstep⟩
  · rw [h'] at hcase
    exact Or.inl (congrArg Plot.state (Option.some.inj hcase))
  · rw [h'] at hcase
    rcases Option.some.inj hcase with rfl
    exact plotStep_state hstep

/-- Witness for C3: planting then watering plot (0,0) moves it along the
Planted→Watered edge. -/
theorem state_follows_lifecycle_edges_witness :
    (Plot.state ⟨PlotState.watered, some 2, TimerStatus.pendingWater 5000⟩).str ∈
        (["empty", "planted", "watered", "ready"] : List String) ∧
      ((Plot.state ⟨PlotState.watered, some 2, TimerStatus.pendingWater 5000⟩) =
          (Plot.state ⟨PlotState.planted, Option.none, TimerStatus.noTimeout⟩) ∨
        allowedEdge (Event.water 2 (some 0) (some 0))
          (Plot.state ⟨PlotState.planted, Option.none, TimerStatus.noTimeout⟩)
          (Plot.state ⟨PlotState.watered, some 2, TimerStatus.pendingWater 5000⟩)) :=
  state_follows_lifecycle_edges [Event.plant (some 0) (some 0)]
    (Event.water 2 (some 0) (some 0)) 0 0
    ⟨PlotState.planted, Option.none, TimerStatus.noTimeout⟩
    ⟨PlotState.watered, some 2, TimerStatus.pendingWater 5000⟩
    (by decide) (by decide)

/-- The per-plot invariant claimed by §3 of the spec: the timer handle is
non-null iff the plot is watered with growth still pending, and
`lastWateredTime` is non-null iff the plot is watered (so an empty,
planted or ready plot always has `lastWateredTime == null`). -/
def specPlotInvariant (p : Plot) : Prop :=
  ((p.growthTimeout ≠ TimerStatus.noTimeout) ↔
      (p.state = .watered ∧ timerPending p = true)) ∧
  ((p.lastWateredTime ≠ Option.none) ↔ p.state = .watered)

instance decSpecPlotInvariant : DecidablePred specPlotInvariant := fun p => by
  unfold specPlotInvariant
  infer_instance

/-- The per-plot invariant the code actually maintains on boards reachable
from the fresh board: the handle is null or a pending water-armed timer;
the handle is non-null iff the plot is watered; and `lastWateredTime` is
non-null iff the plot is watered or ready (the growth callbacks never
clear the watering timestamp, so a ready plot keeps it). -/
def plotInvariant (p : Plot) : Prop :=
  (p.growthTimeout = TimerStatus.noTimeout ∨
      p.growthTimeout = TimerStatus.pendingWater GROWTH_TIME_MS) ∧
  ((p.growthTimeout ≠ TimerStatus.noTimeout) ↔ p.state = .watered) ∧
  ((p.lastWateredTime ≠ Option.none) ↔ (p.state = .watered ∨ p.state = .ready))

instance decPlotInvariant : DecidablePred plotInvariant := fun p => by
  unfold plotInvariant
  infer_instance

theorem plotStep_preserves_invariant {e : Event} {p p' : Plot}
    (hs : plotStep e p p') (hinv : plotInvariant p) : plotInvariant p' := by
  cases e with
  | plant row col =>
    obtain ⟨_, h2⟩ := hs
    subst h2
    decide
  | water now row col =>
    obtain ⟨_, h2⟩ := hs
    subst h2
    refine ⟨Or.inr rfl, ?_, ?_⟩
    · exact iff_of_true (fun hcon => TimerStatus.noConfusion hcon) rfl
    · exact iff_of_true (fun hcon => Option.noConfusion hcon) (Or.inl rfl)
  | harvest row col =>
    obtain ⟨_, h2⟩ := hs
    subst h2
    decide
  | fire rn cn =>
    obtain ⟨hp, h2⟩ := hs
    obtain ⟨hgt, hiff, hlwt⟩ := hinv
    have hpw : p.growthTimeout = TimerStatus.pendingWater GROWTH_TIME_MS := by
      rcases hgt with hh | hh
      · exfalso
        unfold timerPending at hp
        rw [hh] at hp
        exact Bool.noConfusion hp
      · exact hh
    have hw : p.state = .watered :=
      hiff.mp (by rw [hpw]; exact fun hcon => TimerStatus.noConfusion hcon)
    have hfp : (firePlot p).1 = ⟨.ready, p.lastWateredTime, .noTimeout⟩ := by
      simp only [firePlot, hpw, if_pos hw]
    rw [h2, hfp]
    refine ⟨Or.inl rfl, ?_, ?_⟩
    · exact iff_of_false (fun hcon => hcon rfl) (fun hcon => PlotState.noConfusion hcon)
    · exact iff_of_true (hlwt.mpr (Or.inl hw)) (Or.inr rfl)

/-- All plots of a board satisfy the maintained invariant. -/
def boardInvariant (b : Board) : Prop :=
  ∀ r c p, plotAt b r c = some p → plotInvariant p

theorem stepEvent_boardInvariant {b : Board} (e : Event)
    (hb : boardInvariant b) : boardInvariant (stepEvent b e) := by
  intro r c p' h'
  rcases step_shape b e r c with heq | ⟨q, p'', hq, hp'', hstep⟩
  · rw [heq] at h'
    exact hb r c p' h'
  · rw [h'] at hp''
    rcases Option.some.inj hp'' with rfl
    exact plotStep_preserves_invariant hstep (hb r c q hq)

theorem run_boardInvariant (b : Board) (hb : boardInvariant b)
    (es : List Event) : boardInvariant (run b es) := by
  induction es generalizing b with
  | nil => exact hb
  | cons e es ih => exact ih _ (stepEvent_boardInvariant e hb)

theorem plotAt_replicate {m n r c : Nat} {q p : Plot}
    (h : plotAt (List.replicate m (List.replicate n q)) r c = some p) :
    p = q := by
  unfold plotAt at h
  by_cases hr : r < m
  · rw [List.getElem?_replicate_of_lt hr] at h
    have h' : (List.replicate n q)[c]? = some p := h
    by_cases hc : c < n
    · rw [List.getElem?_replicate_of_lt hc] at h'
      exact (Option.some.inj h').symm
    · rw [List.getElem?_eq_none
        (by rw [List.length_replicate]; exact Nat.le_of_not_lt hc)] at h'
      exact Option.noConfusion h'
  · rw [List.getElem?_eq_none
      (by rw [List.length_replicate]; exact Nat.le_of_not_lt hr)] at h
    exact Option.noConfusion h

theorem boardInvariant_fresh : boardInvariant initializeNewGameBoard := by
  intro r c p h
  have hfresh : initializeNewGameBoard =
      List.replicate 4 (List.replicate 5 emptyPlot) := by decide
  rw [hfresh] at h
  rw [plotAt_replicate h]
  decide

/-- C4 (amended): every operation and every timeout firing preserves, on
boards arising from the fresh board, the invariant that the timer handle
is non-null iff the plot is watered (and is then the pending water-armed
timer), and that `lastWateredTime` is non-null iff the plot is watered or
ready; in particular an empty or planted plot always has
`lastWateredTime == null`, but a ready plot retains the timestamp. -/
theorem reachable_plot_invariant (es : List Event) (r c : Nat) (p : Plot)
    (h : plotAt (run initializeNewGameBoard es) r c = some p) :
    plotInvariant p :=
  run_boardInvariant initializeNewGameBoard boardInvariant_fresh es r c p h

/-- Witness for the amended C4 invariant on a concrete reachable plot. -/
theorem reachable_plot_invariant_witness :
    plotInvariant ⟨PlotState.watered, some 7, TimerStatus.pendingWater 5000⟩ :=
  reachable_plot_invariant
    [Event.plant (some 0) (some 0), Event.water 7 (some 0) (some 0)] 0 0
    ⟨PlotState.watered, some 7, TimerStatus.pendingWater 5000⟩ (by decide)

/-- Counterexample to C4 as stated: plant then water plot (0,0) at time 1;
the plot then satisfies the spec's invariant, but when its growth timeout
fires the plot becomes ready while keeping `lastWateredTime = 1`, so the
firing does not preserve the claimed invariant (`lastWateredTime` non-null
iff watered). -/
theorem spec_invariant_not_preserved :
    plotAt (run initializeNewGameBoard
        [Event.plant (some 0) (some 0), Event.water 1 (some 0) (some 0)]) 0 0 =
      some ⟨PlotState.watered, some 1, TimerStatus.pendingWater 5000⟩ ∧
    specPlotInvariant ⟨PlotState.watered, some 1, TimerStatus.pendingWater 5000⟩ ∧
    plotAt (run initializeNewGameBoard
        [Event.plant (some 0) (some 0), Event.water 1 (some 0) (some 0),
          Event.fire 0 0]) 0 0 =
      some ⟨PlotState.ready, some 1, TimerStatus.noTimeout⟩ ∧
    ¬ specPlotInvariant ⟨PlotState.ready, some 1, TimerStatus.noTimeout⟩ := by
  refine ⟨by decide, by decide, by decide, by decide⟩

/-- One event cannot change a watered plot holding no timeout: plant,
water and harvest all reject it, and no timeout can fire for it. -/
theorem stepEvent_watered_no_timer {p : Plot} (hw : p.state = .watered)
    (ht : p.growthTimeout = TimerStatus.noTimeout)
    {b : Board} {r c : Nat} (h : plotAt b r c = some p) (e : Event) :
    plotAt (stepEvent b e) r c = some p := by
  rcases step_cases b e r c p h with hcase | ⟨p', _, hstep⟩
  · exact hcase
  · exfalso
    cases e with
    | plant row col =>
      obtain ⟨h1, _⟩ := hstep
      rw [hw] at h1
      exact PlotState.noConfusion h1
    | water now row col =>
      obtain ⟨h1, _⟩ := hstep
      rw [hw] at h1
      exact PlotState.noConfusion h1
    | harvest row col =>
      obtain ⟨h1, _⟩ := hstep
      rw [hw] at h1
      exact PlotState.noConfusion h1
    | fire rn cn =>
      obtain ⟨h1, _⟩ := hstep
      unfold timerPending at h1
      rw [ht] at h1
      exact Bool.noConfusion h1

/-- C10: during startup, a stored plot that is watered but has a falsy
`lastWateredTime` is skipped by rehydration — no timeout armed, state
untouched — and afterwards no sequence of calls or firings ever changes
it: it stays watered forever and never becomes ready. -/
theorem falsy_timestamp_plot_stuck (now : Int) (q : PersistPlot)
    (hw : q.state = .watered) (ht : truthy q.lastWateredTime = false) :
    rehydratePlot now (loadPlot q) = loadPlot q ∧
    (loadPlot q).growthTimeout = TimerStatus.noTimeout ∧
    (∀ (b : Board) (r c : Nat) (es : List Event),
      plotAt b r c = some (loadPlot q) →
        plotAt (run b es) r c = some (loadPlot q)) := by
  refine ⟨?_, rfl, ?_⟩
  · have hnc : ¬((loadPlot q).state = PlotState.watered ∧
        truthy (loadPlot q).lastWateredTime = true) := by
      intro hcon
      have h2 : truthy q.lastWateredTime = true := hcon.2
      rw [ht] at h2
      exact Bool.noConfusion h2
    unfold rehydratePlot
    rw [if_neg hnc]
  · intro b r c es h
    induction es generalizing b with
    | nil => exact h
    | cons e es ih => exact ih _ (stepEvent_watered_no_timer hw rfl h e)

/-- Witness for C10 at the stored plot `{state: watered, lastWateredTime:
null}`: rehydration leaves it alone and a later firing event does not
change it. -/
theorem falsy_timestamp_plot_stuck_witness :
    rehydratePlot 0 (loadPlot ⟨PlotState.watered, Option.none⟩) =
      loadPlot ⟨PlotState.watered, Option.none⟩ ∧
    plotAt (run [[loadPlot ⟨PlotState.watered, Option.none⟩]] [Event.fire 0 0]) 0 0 =
      some (loadPlot ⟨PlotState.watered, Option.none⟩) :=
  ⟨(falsy_timestamp_plot_stuck 0 ⟨PlotState.watered, Option.none⟩ rfl rfl).1,
   (falsy_timestamp_plot_stuck 0 ⟨PlotState.watered, Option.none⟩ rfl rfl).2.2
     [[loadPlot ⟨PlotState.watered, Option.none⟩]] 0 0 [Event.fire 0 0] (by decide)⟩

theorem gridAt_map {α β : Type} (f : α → β) (g : List (List α)) (r c : Nat) :
    ((g.map (fun row => row.map f))[r]?.bind (fun row => row[c]?)) =
      (g[r]?.bind (fun row => row[c]?)).map f := by
  rw [List.getElem?_map]
  cases g[r]? with
  | none => rfl
  | some row =>
    show (row.map f)[c]? = (row[c]?).map f
    exact List.getElem?_map f row c

/-- Startup with a stored document rehydrates each stored plot in place. -/
theorem plotAt_rehydrated (now : Int) (sb : StoredBoard) (r c : Nat) :
    plotAt (initStorageAndLoadGameState now (some sb)).board r c =
      (storedAt sb r c).map (fun q => rehydratePlot now (loadPlot q)) :=
  gridAt_map (fun q => rehydratePlot now (loadPlot q)) sb r c

/-- C1: on startup with a persisted board present, a stored watered plot
with a (truthy) timestamp `t` is made ready immediately, with no timeout
armed, iff `now - t ≥ GROWTH_TIME_MS`; otherwise a timeout is armed for
exactly `GROWTH_TIME_MS - (now - t)` and its firing performs the guarded
growth-completion transition to ready. -/
theorem init_rehydration (now : Int) (sb : StoredBoard) (r c : Nat)
    (q : PersistPlot) (t : Int)
    (hq : storedAt sb r c = some q) (hw : q.state = .watered)
    (ht : q.lastWateredTime = some t) (ht0 : t ≠ 0) :
    (now - t ≥ GROWTH_TIME_MS →
      plotAt (initStorageAndLoadGameState now (some sb)).board r c =
        some ⟨.ready, some t, .noTimeout⟩) ∧
    (now - t < GROWTH_TIME_MS →
      plotAt (initStorageAndLoadGameState now (some sb)).board r c =
        some ⟨.watered, some t, .pendingRehyd (GROWTH_TIME_MS - (now - t))⟩ ∧
      (firePlot ⟨.watered, some t, .pendingRehyd (GROWTH_TIME_MS - (now - t))⟩).1 =
        ⟨.ready, some t, .firedRehyd⟩) := by
  have hG : GROWTH_TIME_MS = 5000 := rfl
  have hload : loadPlot q = ⟨.watered, some t, .noTimeout⟩ := by
    unfold loadPlot
    rw [hw, ht]
  have hre : rehydratePlot now (loadPlot q) =
      if GROWTH_TIME_MS - (now - t) > 0 then
        ⟨.watered, some t, .pendingRehyd (GROWTH_TIME_MS - (now - t))⟩
      else ⟨.ready, some t, .noTimeout⟩ := by
    rw [hload]
    unfold rehydratePlot
    rw [if_pos ⟨rfl, by unfold truthy; exact decide_eq_true ht0⟩]
    rfl
  have hmap := plotAt_rehydrated now sb r c
  rw [hq] at hmap
  have hmap2 : plotAt (initStorageAndLoadGameState now (some sb)).board r c =
      some (rehydratePlot now (loadPlot q)) := hmap
  constructor
  · intro helapsed
    rw [hmap2, hre, if_neg (by rw [hG] at helapsed ⊢; omega)]
  · intro helapsed
    refine ⟨?_, rfl⟩
    rw [hmap2, hre, if_pos (by rw [hG] at helapsed ⊢; omega)]

/-- Witness for C1 (already-elapsed branch): a plot watered at 500 and
reloaded at 6000 is ready at once, with no timeout armed. -/
theorem init_rehydration_witness :
    plotAt (initStorageAndLoadGameState 6000
        (some [[⟨PlotState.watered, some 500⟩]])).board 0 0 =
      some ⟨PlotState.ready, some 500, TimerStatus.noTimeout⟩ :=
  (init_rehydration 6000 [[⟨PlotState.watered, some 500⟩]] 0 0
    ⟨PlotState.watered, some 500⟩ 500 (by decide) rfl rfl (by decide)).1 (by decide)

/-- C2: when a growth timeout fires — whether armed by watering or
re-armed during rehydration — the transition to ready happens only if the
plot is still watered at fire time; in any other state the firing changes
no observable plot field (state, timestamp, handle truthiness) and writes
nothing, silently. -/
theorem fire_guarded (p : Plot) (d : Int)
    (hpend : p.growthTimeout = TimerStatus.pendingWater d ∨
        p.growthTimeout = TimerStatus.pendingRehyd d) :
    (p.state = .watered → (firePlot p).1.state = .ready ∧ (firePlot p).2 = true) ∧
    (p.state ≠ .watered →
      (firePlot p).1.state = p.state ∧
      (firePlot p).1.lastWateredTime = p.lastWateredTime ∧
      growthTimeoutSet (firePlot p).1 = growthTimeoutSet p ∧
      (firePlot p).2 = false) := by
  rcases hpend with hgt | hgt <;>
    refine ⟨fun hw => ?_, fun hw => ?_⟩ <;>
    simp [firePlot, growthTimeoutSet, hgt, hw]

/-- Witness for C2 (stale-fire branch): a pending timeout firing on a
plot that is no longer watered is an observable no-op with no save. -/
theorem fire_guarded_witness :
    (firePlot ⟨PlotState.ready, some 3, TimerStatus.pendingWater 5000⟩).1.state =
        PlotState.ready ∧
      (firePlot ⟨PlotState.ready, some 3, TimerStatus.pendingWater 5000⟩).1.lastWateredTime =
        some 3 ∧
      growthTimeoutSet (firePlot ⟨PlotState.ready, some 3, TimerStatus.pendingWater 5000⟩).1 =
        growthTimeoutSet ⟨PlotState.ready, some 3, TimerStatus.pendingWater 5000⟩ ∧
      (firePlot ⟨PlotState.ready, some 3, TimerStatus.pendingWater 5000⟩).2 = false :=
  (fire_guarded ⟨PlotState.ready, some 3, TimerStatus.pendingWater 5000⟩ 5000
    (Or.inl rfl)).2 (by decide)

/-- C5: a call with valid coordinates whose action is illegal for the
plot's current state returns the 400 rejection carrying the specific
reason the code pairs with that (action, state), leaves the whole board
unchanged, and performs no storage write. -/
theorem invalid_transition_rejection (b : Board) (now : Int) (r c : Int) (p : Plot)
    (h0r : 0 ≤ r) (hrR : r < ROWS) (h0c : 0 ≤ c) (hcC : c < COLS)
    (hq : plotAt b r.toNat c.toNat = some p) :
    (p.state ≠ .empty →
      plantHandler b (some r) (some c) =
        some ⟨b, 400, false, "Plot is not empty.", []⟩) ∧
    ((p.state = .watered ∨ p.state = .ready) →
      waterHandler b now (some r) (some c) =
        some ⟨b, 400, false, "Plant is already watered or ready.", []⟩) ∧
    (p.state = .empty →
      waterHandler b now (some r) (some c) =
        some ⟨b, 400, false, "Nothing to water here. Plant a seed first!", []⟩) ∧
    (p.state = .empty →
      harvestHandler b (some r) (some c) =
        some ⟨b, 400, false, "Nothing to harvest here. Plot is empty!", []⟩) ∧
    ((p.state = .planted ∨ p.state = .watered) →
      harvestHandler b (some r) (some c) =
        some ⟨b, 400, false, "Plant is not ready to harvest yet.", []⟩) := by
  have hv : ¬(r < 0 ∨ r ≥ ROWS ∨ c < 0 ∨ c ≥ COLS) := by
    push_neg
    exact ⟨h0r, hrR, h0c, hcC⟩
  refine ⟨?_, ?_, ?_, ?_, ?_⟩
  · intro hstate
    simp only [plantHandler, if_neg hv, hq, if_neg hstate]
  · intro hstate
    have hs1 : ¬p.state = PlotState.planted := by
      rcases hstate with hh | hh <;> rw [hh] <;>
        exact fun hcon => PlotState.noConfusion hcon
    simp only [waterHandler, if_neg hv, hq, if_neg hs1, if_pos hstate]
  · intro hstate
    have hs1 : ¬p.state = PlotState.planted := by
      rw [hstate]; exact fun hcon => PlotState.noConfusion hcon
    have hs2 : ¬(p.state = PlotState.watered ∨ p.state = PlotState.ready) := by
      rw [hstate]
      rintro (hcon | hcon) <;> exact PlotState.noConfusion hcon
    simp only [waterHandler, if_neg hv, hq, if_neg hs1, if_neg hs2]
  · intro hstate
    have hs1 : ¬p.state = PlotState.ready := by
      rw [hstate]; exact fun hcon => PlotState.noConfusion hcon
    simp only [harvestHandler, if_neg hv, hq, if_neg hs1, if_pos hstate]
  · intro hstate
    have hs1 : ¬p.state = PlotState.ready := by
      rcases hstate with hh | hh <;> rw [hh] <;>
        exact fun hcon => PlotState.noConfusion hcon
    have hs2 : ¬p.state = PlotState.empty := by
      rcases hstate with hh | hh <;> rw [hh] <;>
        exact fun hcon => PlotState.noConfusion hcon
    simp only [harvestHandler, if_neg hv, hq, if_neg hs1, if_neg hs2]

/-- Witness for C5: watering an empty plot on the fresh board is rejected
with the water-on-empty reason, board and storage untouched. -/
theorem invalid_transition_rejection_witness :
    waterHandler initializeNewGameBoard 9 (some 0) (some 0) =
      some ⟨initializeNewGameBoard, 400, false,
        "Nothing to water here. Plant a seed first!", []⟩ :=
  (invalid_transition_rejection initializeNewGameBoard 9 0 0 emptyPlot
    (by decide) (by decide) (by decide) (by decide) (by decide)).2.2.1 rfl

/-- The coordinates of a request as the claim states them: both present
and inside `[0, ROWS) × [0, COLS)`. -/
def validCoordsSpec (row col : Option Int) : Prop :=
  ∃ r c : Int, row = some r ∧ col = some c ∧
    0 ≤ r ∧ r < ROWS ∧ 0 ≤ c ∧ c < COLS

/-- C6: each of the three mutating endpoints, taken individually, answers
400 with `{success:false, message:"Invalid plot coordinates."}` — board
untouched, nothing saved — exactly when a coordinate is missing or out of
range; for any other integer coordinates that endpoint gets past
validation to the plot lookup and state-machine dispatch (its answer, if
any, is never that response). -/
theorem coordinate_validation (b : Board) (now : Int) (row col : Option Int) :
    (plantHandler b row col =
        some ⟨b, 400, false, "Invalid plot coordinates.", []⟩ ↔
      ¬ validCoordsSpec row col) ∧
    (waterHandler b now row col =
        some ⟨b, 400, false, "Invalid plot coordinates.", []⟩ ↔
      ¬ validCoordsSpec row col) ∧
    (harvestHandler b row col =
        some ⟨b, 400, false, "Invalid plot coordinates.", []⟩ ↔
      ¬ validCoordsSpec row col) := by
  cases row with
  | none =>
    have hnv : ¬ validCoordsSpec Option.none col := by
      rintro ⟨r', c', hr, -⟩
      exact Option.noConfusion hr
    exact ⟨iff_of_true (by cases col <;> rfl) hnv,
      iff_of_true (by cases col <;> rfl) hnv,
      iff_of_true (by cases col <;> rfl) hnv⟩
  | some rr =>
    cases col with
    | none =>
      have hnv : ¬ validCoordsSpec (some rr) Option.none := by
        rintro ⟨r', c', -, hc, -⟩
        exact Option.noConfusion hc
      exact ⟨iff_of_true rfl hnv, iff_of_true rfl hnv, iff_of_true rfl hnv⟩
    | some cc =>
      by_cases hv : rr < 0 ∨ rr ≥ ROWS ∨ cc < 0 ∨ cc ≥ COLS
      · have hnv : ¬ validCoordsSpec (some rr) (some cc) := by
          rintro ⟨r', c', hr, hc, h1, h2, h3, h4⟩
          rcases Option.some.inj hr with rfl
          rcases Option.some.inj hc with rfl
          rcases hv with hh | hh | hh | hh
          · exact absurd hh (not_lt.mpr h1)
          · exact absurd h2 (not_lt.mpr hh)
          · exact absurd hh (not_lt.mpr h3)
          · exact absurd h4 (not_lt.mpr hh)
        refine ⟨iff_of_true ?_ hnv, iff_of_true ?_ hnv, iff_of_true ?_ hnv⟩
        · simp only [plantHandler, if_pos hv]
        · simp only [waterHandler, if_pos hv]
        · simp only [harvestHandler, if_pos hv]
      · have hval : validCoordsSpec (some rr) (some cc) := by
          push_neg at hv
          exact ⟨rr, cc, rfl, rfl, hv.1, hv.2.1, hv.2.2.1, hv.2.2.2⟩
        have hnn : ¬¬ validCoordsSpec (some rr) (some cc) := fun hno => hno hval
        refine ⟨iff_of_false ?_ hnn, iff_of_false ?_ hnn, iff_of_false ?_ hnn⟩
        · intro h1
          cases hq : plotAt b rr.toNat cc.toNat with
          | none =>
            simp only [plantHandler, if_neg hv, hq] at h1
            exact Option.noConfusion h1
          | some plot =>
            by_cases hs : plot.state = PlotState.empty
            · simp only [plantHandler, if_neg hv, hq, if_pos hs] at h1
              have hstat : (200 : Nat) = 400 :=
                congrArg HandlerResult.status (Option.some.inj h1)
              exact absurd hstat (by decide)
            · simp only [plantHandler, if_neg hv, hq, if_neg hs] at h1
              have hmsg : "Plot is not empty." = "Invalid plot coordinates." :=
                congrArg HandlerResult.message (Option.some.inj h1)
              exact absurd hmsg (by decide)
        · intro h1
          cases hq : plotAt b rr.toNat cc.toNat with
          | none =>
            simp only [waterHandler, if_neg hv, hq] at h1
            exact Option.noConfusion h1
          | some plot =>
            by_cases hs1 : plot.state = PlotState.planted
            · simp only [waterHandler, if_neg hv, hq, if_pos hs1] at h1
              have hstat : (200 : Nat) = 400 :=
                congrArg HandlerResult.status (Option.some.inj h1)
              exact absurd hstat (by decide)
            · by_cases hs2 : plot.state = PlotState.watered ∨
                  plot.state = PlotState.ready
              · simp only [waterHandler, if_neg hv, hq, if_neg hs1, if_pos hs2] at h1
                have hmsg : "Plant is already watered or ready." =
                    "Invalid plot coordinates." :=
                  congrArg HandlerResult.message (Option.some.inj h1)
                exact absurd hmsg (by decide)
              · simp only [waterHandler, if_neg hv, hq, if_neg hs1, if_neg hs2] at h1
                have hmsg : "Nothing to water here. Plant a seed first!" =
                    "Invalid plot coordinates." :=
                  congrArg HandlerResult.message (Option.some.inj h1)
                exact absurd hmsg (by decide)
        · intro h1
          cases hq : plotAt b rr.toNat cc.toNat with
          | none =>
            simp only [harvestHandler, if_neg hv, hq] at h1
            exact Option.noConfusion h1
          | some plot =>
            by_cases hs1 : plot.state = PlotState.ready
            · simp only [harvestHandler, if_neg hv, hq, if_pos hs1] at h1
              have hstat : (200 : Nat) = 400 :=
                congrArg HandlerResult.status (Option.some.inj h1)
              exact absurd hstat (by decide)
            · by_cases hs2 : plot.state = PlotState.empty
              · simp only [harvestHandler, if_neg hv, hq, if_neg hs1, if_pos hs2] at h1
                have hmsg : "Nothing to harvest here. Plot is empty!" =
                    "Invalid plot coordinates." :=
                  congrArg HandlerResult.message (Option.some.inj h1)
                exact absurd hmsg (by decide)
              · simp only [harvestHandler, if_neg hv, hq, if_neg hs1, if_neg hs2] at h1
                have hmsg : "Plant is not ready to harvest yet." =
                    "Invalid plot coordinates." :=
                  congrArg HandlerResult.message (Option.some.inj h1)
                exact absurd hmsg (by decide)

/-- C7: watering a planted plot at valid coordinates succeeds: the plot
becomes watered with `lastWateredTime = now`, any previous timeout is
replaced by exactly one pending growth timeout armed for the fixed
`GROWTH_TIME_MS`, the full board is saved during the call, and the
success message reports the growth duration in seconds (5). -/
theorem water_on_planted_success (b : Board) (now : Int) (r c : Int) (p : Plot)
    (h0r : 0 ≤ r) (hrR : r < ROWS) (h0c : 0 ≤ c) (hcC : c < COLS)
    (hq : plotAt b r.toNat c.toNat = some p) (hs : p.state = .planted) :
    waterHandler b now (some r) (some c) =
      some ⟨setPlot b r.toNat c.toNat
          ⟨.watered, some now, .pendingWater GROWTH_TIME_MS⟩,
        200, true,
        "Plant at (" ++ toString r ++ ", " ++ toString c ++
          ") watered. It will be ready in " ++
          toString (GROWTH_TIME_MS / 1000) ++ " seconds.",
        [saveGameBoard (setPlot b r.toNat c.toNat
          ⟨.watered, some now, .pendingWater GROWTH_TIME_MS⟩)]⟩ ∧
    plotAt (setPlot b r.toNat c.toNat
        ⟨.watered, some now, .pendingWater GROWTH_TIME_MS⟩) r.toNat c.toNat =
      some ⟨.watered, some now, .pendingWater GROWTH_TIME_MS⟩ ∧
    GROWTH_TIME_MS / 1000 = 5 := by
  have hv : ¬(r < 0 ∨ r ≥ ROWS ∨ c < 0 ∨ c ≥ COLS) := by
    push_neg
    exact ⟨h0r, hrR, h0c, hcC⟩
  refine ⟨?_, plotAt_setPlot_eq _ hq, rfl⟩
  simp only [waterHandler, if_neg hv, hq, if_pos hs]

/-- Witness for C7: watering plot (0,0) right after planting it. -/
theorem water_on_planted_success_witness :
    plotAt (setPlot (stepEvent initializeNewGameBoard
        (Event.plant (some 0) (some 0))) 0 0
        ⟨PlotState.watered, some 42, TimerStatus.pendingWater GROWTH_TIME_MS⟩) 0 0 =
      some ⟨PlotState.watered, some 42, TimerStatus.pendingWater GROWTH_TIME_MS⟩ :=
  (water_on_planted_success
    (stepEvent initializeNewGameBoard (Event.plant (some 0) (some 0))) 42 0 0
    ⟨PlotState.planted, Option.none, TimerStatus.noTimeout⟩
    (by decide) (by decide) (by decide) (by decide) (by decide) rfl).2.1

/-- C8: startup with no persisted document builds the fresh ROWS × COLS
board with every plot `{state:'empty', lastWateredTime:null,
growthTimeout:null}` and immediately writes exactly that board to
storage. -/
theorem init_fresh_board (now : Int) :
    (initStorageAndLoadGameState now Option.none).board =
      List.replicate ROWS.toNat (List.replicate COLS.toNat
        (⟨PlotState.empty, Option.none, TimerStatus.noTimeout⟩ : Plot)) ∧
    (initStorageAndLoadGameState now Option.none).saves =
      [saveGameBoard (initStorageAndLoadGameState now Option.none).board] ∧
    ROWS = 4 ∧ COLS = 5 := by
  refine ⟨?_, rfl, rfl, rfl⟩
  show initializeNewGameBoard = List.replicate ROWS.toNat (List.replicate COLS.toNat
    (⟨PlotState.empty, Option.none, TimerStatus.noTimeout⟩ : Plot))
  decide

/-- C9: the board query is a total pure function of the board: it returns,
for every plot, a fresh record holding just that plot's state and
watering timestamp — the timer handle is absent from the response by
construction — and neither the board nor storage is touched. -/
theorem game_state_snapshot (b : Board) (r c : Nat) (p : Plot)
    (h : plotAt b r c = some p) :
    storedAt (apiGameState b) r c = some ⟨p.state, p.lastWateredTime⟩ := by
  have hmap : storedAt (apiGameState b) r c = (plotAt b r c).map serializePlot :=
    gridAt_map serializePlot b r c
  rw [hmap, h]
  rfl

/-- Witness for C9: the snapshot of a freshly watered plot. -/
theorem game_state_snapshot_witness :
    storedAt (apiGameState (run initializeNewGameBoard
        [Event.plant (some 0) (some 0), Event.water 5 (some 0) (some 0)])) 0 0 =
      some ⟨PlotState.watered, some 5⟩ :=
  game_state_snapshot
    (run initializeNewGameBoard
      [Event.plant (some 0) (some 0), Event.water 5 (some 0) (some 0)]) 0 0
    ⟨PlotState.watered, some 5, TimerStatus.pendingWater 5000⟩ (by decide)

end Farm
